import Mathlib

/-!
# Verification of the clean-ddd-hexagonal order domain

Shallow embedding of the Rust example domain
(`src/skills/clean-ddd-hexagonal/examples/rust`): the `Money` value object,
the `Order` aggregate, and the place-order use case handler.

Machine integers are modelled as `Int` (amounts, `i64`) and `Nat`
(quantities, `u32`); the concrete inputs used in all witness and
counterexample theorems are far from any overflow boundary, so wrap-around
is irrelevant to every statement proved here.

Rust's `&mut self` methods returning `Result<(), E>` are embedded as
functions `Order → Except E Unit × Order`: the first component is the
returned `Result`, the second the state of `self` after the call.
-/

deriving instance DecidableEq for Except

/-- Character-wise upper-casing, the embedding of `str::to_uppercase()` as
used on ASCII currency codes (each character mapped to its upper-case form). -/
def upperCase (s : String) : String :=
  String.mk (s.data.map Char.toUpper)

/-- Errors for the `Money` value object, from `value_objects.rs`
(`enum MoneyError`). -/
inductive MoneyError where
  | NegativeAmount
  | CurrencyMismatch
deriving DecidableEq, Repr

/-- A monetary amount with currency, from `value_objects.rs` (`struct Money`).
`amount` is in the smallest currency unit; `currency` an ISO 4217 code. -/
structure Money where
  amount : Int
  currency : String
deriving DecidableEq, Repr

namespace Money

/-- `Money::new`: fails with `NegativeAmount` when amount < 0, otherwise
stores the amount with the currency upper-cased. -/
def new (amount : Int) (currency : String) : Except MoneyError Money :=
  if amount < 0 then .error .NegativeAmount
  else .ok { amount := amount, currency := upperCase currency }

/-- `Money::zero`: amount 0, currency upper-cased. -/
def zero (currency : String) : Money :=
  { amount := 0, currency := upperCase currency }

/-- `Money::add`: fails with `CurrencyMismatch` when currencies differ,
otherwise returns the sum with the same currency. -/
def add (self other : Money) : Except MoneyError Money :=
  if self.currency ≠ other.currency then .error .CurrencyMismatch
  else .ok { amount := self.amount + other.amount, currency := self.currency }

/-- `Money::multiply`: scales the amount by an integer factor (`i32` in the
source, cast to `i64`); the currency is unchanged. No validation. -/
def multiply (self : Money) (factor : Int) : Money :=
  { amount := self.amount * factor, currency := self.currency }

end Money

/-- `OrderId` from `value_objects.rs`, wrapping a UUID. The UUID is modelled
by its canonical textual form (`as_str` in the source returns
`self.0.to_string()`). -/
structure OrderId where
  value : String
deriving DecidableEq, Repr

/-- `OrderId::as_str`: the string representation of the id. -/
def OrderId.as_str (id : OrderId) : String := id.value

/-- Modelled from the spec: `CustomerId` is not under `src/` (only used by
`order.rs` and `handler.rs`). Per spec §3 it is an opaque identifier
serialized as canonical text, equality by value. -/
structure CustomerId where
  value : String
deriving DecidableEq, Repr

/-- Modelled from the spec: `ProductId` is not under `src/`. Per spec §3 it
is an opaque identifier serialized as canonical text, equality by value. -/
structure ProductId where
  value : String
deriving DecidableEq, Repr

/-- Modelled from the spec: `OrderItem` is not under `src/` (only its uses in
`order.rs` are). Per spec §3: `{product_id, quantity: unsigned integer,
unit_price: Money}`. -/
structure OrderItem where
  product_id : ProductId
  quantity : Nat
  unit_price : Money
deriving DecidableEq, Repr

namespace OrderItem

/-- Modelled from the spec: `OrderItem::new` as used by `Order::add_item`. -/
def new (product_id : ProductId) (quantity : Nat) (unit_price : Money) :
    OrderItem :=
  { product_id := product_id, quantity := quantity, unit_price := unit_price }

/-- Modelled from the spec: `OrderItem::increase_quantity` as used by
`Order::add_item` ("increases its quantity by `quantity`", spec §4.2);
nothing else about the item changes. -/
def increase_quantity (item : OrderItem) (quantity : Nat) : OrderItem :=
  { item with quantity := item.quantity + quantity }

/-- Modelled from the spec: `OrderItem::subtotal`, per spec §3
"Subtotal = unit_price × quantity", using `Money::multiply`. -/
def subtotal (item : OrderItem) : Money :=
  item.unit_price.multiply item.quantity

end OrderItem

/-- Modelled from the spec: `OrderEvent` lives in the `events` module, which
is not under `src/`. Per spec §3: tagged variant
`{Created{order_id, customer_id}, Confirmed{order_id, total}}`. -/
inductive OrderEvent where
  | Created (order_id : OrderId) (customer_id : CustomerId)
  | Confirmed (order_id : OrderId) (total : Money)
deriving DecidableEq, Repr

/-- Lifecycle states for an Order, from `order.rs` (`enum OrderStatus`). -/
inductive OrderStatus where
  | Draft
  | Confirmed
  | Shipped
  | Cancelled
deriving DecidableEq, Repr

/-- Errors for the `Order` aggregate, from `order.rs` (`enum OrderError`). -/
inductive OrderError where
  | CannotModifyCancelled
  | InvalidQuantity
  | EmptyOrder
  | InvalidState (msg : String)
deriving DecidableEq, Repr

/-- The Order aggregate root, from `order.rs` (`struct Order`). -/
structure Order where
  id : OrderId
  customer_id : CustomerId
  items : List OrderItem
  status : OrderStatus
  events : List OrderEvent
deriving DecidableEq, Repr

namespace Order

/-- `Order::create`: new order in `Draft` status with no items, emitting a
single `Created` event. The source draws a fresh random UUID
(`OrderId::new()`); the fresh id is passed as a parameter here. -/
def create (id : OrderId) (customer_id : CustomerId) : Order :=
  { id := id
    customer_id := customer_id
    items := []
    status := .Draft
    events := [.Created id customer_id] }

/-- The merge step of `Order::add_item`: find the first item with the given
`product_id` and increase its quantity, or push a new line item at the end
when none matches (`self.items.iter_mut().find(...)` then
`item.increase_quantity(quantity)`, else `self.items.push(...)`). -/
def mergeItem (items : List OrderItem) (product_id : ProductId)
    (quantity : Nat) (unit_price : Money) : List OrderItem :=
  match items with
  | [] => [OrderItem.new product_id quantity unit_price]
  | item :: rest =>
      if item.product_id = product_id then
        item.increase_quantity quantity :: rest
      else
        item :: mergeItem rest product_id quantity unit_price

/-- `Order::add_item`: fails with `CannotModifyCancelled` on a cancelled
order, then with `InvalidQuantity` on quantity 0; otherwise merges into the
existing line item with the same product id or appends a new one. -/
def add_item (self : Order) (product_id : ProductId) (quantity : Nat)
    (unit_price : Money) : Except OrderError Unit × Order :=
  if self.status = .Cancelled then (.error .CannotModifyCancelled, self)
  else if quantity = 0 then (.error .InvalidQuantity, self)
  else (.ok (),
    { self with items := mergeItem self.items product_id quantity unit_price })

/-- `Order::total`: folds the item subtotals with `Money::add` starting from
`Money::zero("USD")`; a failing addition leaves the accumulator unchanged
(`unwrap_or(acc)`). -/
def total (self : Order) : Money :=
  self.items.foldl
    (fun acc item =>
      match acc.add item.subtotal with
      | .ok m => m
      | .error _ => acc)
    (Money.zero "USD")

/-- `Order::confirm`: fails with `InvalidState` unless the status is `Draft`,
then with `EmptyOrder` when there are no items; otherwise sets the status
to `Confirmed` and pushes a `Confirmed` event carrying `self.total()`. -/
def confirm (self : Order) : Except OrderError Unit × Order :=
  if self.status ≠ .Draft then
    (.error (.InvalidState "Can only confirm draft orders"), self)
  else if self.items.isEmpty then (.error .EmptyOrder, self)
  else (.ok (),
    { self with
        status := .Confirmed
        events := self.events ++ [.Confirmed self.id self.total] })

/-- `AggregateRoot::domain_events` for `Order` (from `order.rs`). -/
def domain_events (self : Order) : List OrderEvent := self.events

/-- `AggregateRoot::clear_events` for `Order` (from `order.rs`). -/
def clear_events (self : Order) : Order := { self with events := [] }

end Order

/-- Errors for repository operations, from `repository.rs`
(`enum RepositoryError`). -/
inductive RepositoryError where
  | Database (msg : String)
  | NotFound
deriving DecidableEq, Repr

/-- The product data the handler needs, per the product-lookup collaborator
contract (spec §6: `find_by_id(product_id) → optional {price: Money}`):
`handler.rs` reads `product.price`. -/
structure Product where
  price : Money
deriving DecidableEq, Repr

/-- A line item of the place-order command, from `command.rs`
(`struct PlaceOrderItem`). -/
structure PlaceOrderItem where
  product_id : String
  quantity : Nat
deriving DecidableEq, Repr

/-- The place-order command, from `command.rs` (`struct PlaceOrderCommand`). -/
structure PlaceOrderCommand where
  customer_id : String
  items : List PlaceOrderItem
deriving DecidableEq, Repr

/-- Errors of the place-order use case, from `handler.rs`
(`enum PlaceOrderError`). -/
inductive PlaceOrderError where
  | InvalidCustomerId
  | InvalidProductId
  | ProductNotFound (product_id : String)
  | Order (e : OrderError)
  | Repository (e : RepositoryError)
deriving DecidableEq, Repr

namespace PlaceOrderHandler

/-- The `for item in cmd.items` loop of `PlaceOrderHandler::handle`: look the
product up, parse the product id, then `add_item`, propagating every error
(`OrderError` wrapped as `PlaceOrderError::Order`, repository failures as
`PlaceOrderError::Repository`). -/
def addCommandItems
    (findProduct : String → Except RepositoryError (Option Product))
    (parseProduct : String → Option ProductId)
    (items : List PlaceOrderItem) (order : Order) :
    Except PlaceOrderError Order :=
  match items with
  | [] => .ok order
  | item :: rest =>
      match findProduct item.product_id with
      | .error e => .error (.Repository e)
      | .ok none => .error (.ProductNotFound item.product_id)
      | .ok (some product) =>
          match parseProduct item.product_id with
          | none => .error .InvalidProductId
          | some product_id =>
              match order.add_item product_id item.quantity product.price with
              | (.ok _, order') => addCommandItems findProduct parseProduct rest order'
              | (.error e, _) => .error (.Order e)

/-- `PlaceOrderHandler::handle`. The collaborators reached through the
`OrderRepository` and `ProductRepository` ports, the id drawn by
`OrderId::new()`, and `CustomerId::from_string` / `ProductId::from_string`
(whose modules are not under `src/`; per spec §3 parsing fails on malformed
input) are passed as parameters:
`freshId` the id `Order::create` draws, `parseCustomer`/`parseProduct` the
id parsers (`none` = `InvalidFormat`), `findProduct` the product lookup,
`save` the repository save. Returns the new order's id as a string. -/
def handle (freshId : OrderId)
    (parseCustomer : String → Option CustomerId)
    (parseProduct : String → Option ProductId)
    (findProduct : String → Except RepositoryError (Option Product))
    (save : Order → Except RepositoryError Unit)
    (cmd : PlaceOrderCommand) : Except PlaceOrderError String :=
  match parseCustomer cmd.customer_id with
  | none => .error .InvalidCustomerId
  | some customer_id =>
      match addCommandItems findProduct parseProduct cmd.items
          (Order.create freshId customer_id) with
      | .error e => .error e
      | .ok order =>
          match save order with
          | .error e => .error (.Repository e)
          | .ok _ => .ok order.id.as_str

end PlaceOrderHandler

/-! ## Helper definitions used by the statements -/

/-- Total quantity stored for a product id in an item list (sum over the
items with that product id; on a duplicate-free list this is the stored
quantity of the unique such item, or 0 when absent). -/
def qtyOf (product_id : ProductId) (items : List OrderItem) : Nat :=
  ((items.filter (fun i => i.product_id = product_id)).map
    (fun i => i.quantity)).sum

/-- Sum of the quantities requested for a product id across a list of
`add_item` calls `(product_id, quantity, unit_price)`. -/
def sumFor (product_id : ProductId) (ops : List (ProductId × Nat × Money)) :
    Nat :=
  ((ops.filter (fun op => op.1 = product_id)).map (fun op => op.2.1)).sum

/-- Apply a sequence of `add_item` calls, keeping each call's post-state. -/
def addAll (order : Order) (ops : List (ProductId × Nat × Money)) : Order :=
  ops.foldl (fun o op => (o.add_item op.1 op.2.1 op.2.2).2) order

/-- The total as the spec's words describe it (spec §4.2 / claim C6): the
left fold of the item subtotals with `Money::add` starting from
`zero("USD")`, where a step whose addition fails leaves the accumulator
unchanged instead of propagating an error. To be compared with
`Order.total`, which is translated from the source. -/
def specTotalFold (items : List OrderItem) : Money :=
  items.foldl
    (fun acc item =>
      match acc.add item.subtotal with
      | .ok m => m
      | .error _ => acc)
    (Money.zero "USD")

/-- The `Money` values reachable through the public operations, with
`multiply` restricted to non-negative factors (the amendment claim C1
needs: an unrestricted `multiply` escapes the invariant). -/
inductive Money.Reachable : Money → Prop where
  | new (a : Int) (c : String) (m : Money) :
      Money.new a c = .ok m → Money.Reachable m
  | zero (c : String) : Money.Reachable (Money.zero c)
  | add (m₁ m₂ m : Money) : Money.Reachable m₁ → Money.Reachable m₂ →
      m₁.add m₂ = .ok m → Money.Reachable m
  | multiply (m : Money) (f : Int) : Money.Reachable m → 0 ≤ f →
      Money.Reachable (m.multiply f)

/-! ## Claims -/

/-- **C1, counterexample.** The claim "for every Money m with amount ≥ 0 and
every factor f, m.multiply(f) has a non-negative amount" is false:
`Money::new(1, "USD")` yields an amount of 1 ≥ 0, yet multiplying by the
factor −1 yields amount −1 < 0 (`Money::multiply` performs no validation). -/
theorem money_multiply_negative_counterexample :
    Money.new 1 "USD" = .ok (Money.mk 1 "USD") ∧
    ((Money.mk 1 "USD").multiply (-1)).amount < 0 := by
  decide

/-- **C1, amended.** Every `Money` value reachable through `new`, `zero`,
`add`, and `multiply` with a *non-negative* factor has a non-negative
amount; the restriction on the factor is forced by the counterexample
(`multiply` with a negative factor on a positive amount goes negative). -/
theorem money_reachable_nonneg (m : Money) (h : Money.Reachable m) :
    0 ≤ m.amount := by
  induction h with
  | new a c m hm =>
      unfold Money.new at hm
      split at hm
      · exact absurd hm (by simp)
      · simp only [Except.ok.injEq] at hm
        subst hm
        show (0 : Int) ≤ a
        omega
  | zero c => simp [Money.zero]
  | add m₁ m₂ m _ _ hm ih₁ ih₂ =>
      unfold Money.add at hm
      split at hm
      · exact absurd hm (by simp)
      · simp only [Except.ok.injEq] at hm
        subst hm
        simpa using add_nonneg ih₁ ih₂
  | multiply m f _ hf ih =>
      simpa [Money.multiply] using mul_nonneg ih hf

/-- **C1, witness.** The invariant instantiated at `Money::zero("USD")`. -/
theorem money_reachable_nonneg_witness :
    0 ≤ (Money.zero "USD").amount :=
  money_reachable_nonneg (Money.zero "USD") (Money.Reachable.zero "USD")

/-- **C5.** `Money::add` is commutative, associative (composing the
`Result`s with `bind`; for same-currency operands every composition
succeeds, and the statement holds for all operands), and fails with
`CurrencyMismatch` exactly when the two currencies differ. -/
theorem money_add_comm_assoc (a b c : Money) :
    a.add b = b.add a ∧
    (a.add b).bind (fun ab => ab.add c) =
      (b.add c).bind (fun bc => a.add bc) ∧
    (a.add b = .error .CurrencyMismatch ↔ a.currency ≠ b.currency) := by
  obtain ⟨xa, ca⟩ := a
  obtain ⟨xb, cb⟩ := b
  obtain ⟨xc, cc⟩ := c
  refine ⟨?_, ?_, ?_⟩ <;>
    simp only [Money.add, Except.bind] <;>
    split_ifs <;>
    simp_all <;>
    omega

/-- **C6.** `Order::total` is exactly the spec's description: the left fold
of the item subtotals with `Money::add` starting from `zero("USD")`, where
a step whose addition fails (the only failure being a currency mismatch)
leaves the accumulator unchanged instead of propagating an error; in
particular `total` returns a `Money`, never an error. -/
theorem total_eq_specTotalFold (o : Order) : o.total = specTotalFold o.items :=
  rfl

/-- **C8.** `Order::add_item` succeeds on every non-Cancelled order (whatever
the status: Draft, Confirmed, or Shipped) for every positive quantity, and
fails with `CannotModifyCancelled` exactly when the status is Cancelled. -/
theorem add_item_non_cancelled (o : Order) (pid : ProductId) (q : Nat)
    (p : Money) :
    (o.status ≠ .Cancelled → 0 < q → (o.add_item pid q p).1 = .ok ()) ∧
    ((o.add_item pid q p).1 = .error .CannotModifyCancelled ↔
      o.status = .Cancelled) := by
  unfold Order.add_item
  split_ifs <;> simp_all

/-- **C8, witness.** A fresh Draft order accepts an item with quantity 1, and
does not fail with `CannotModifyCancelled`. -/
theorem add_item_non_cancelled_witness :
    ((Order.create ⟨"o1"⟩ ⟨"c1"⟩).add_item ⟨"p1"⟩ 1 (Money.zero "USD")).1 =
        .ok () ∧
    (((Order.create ⟨"o1"⟩ ⟨"c1"⟩).add_item ⟨"p1"⟩ 1
        (Money.zero "USD")).1 = .error .CannotModifyCancelled ↔
      (Order.create ⟨"o1"⟩ ⟨"c1"⟩).status = .Cancelled) :=
  ⟨(add_item_non_cancelled _ _ _ _).1 (by decide) (by decide),
   (add_item_non_cancelled _ _ _ _).2⟩

/-- **C9.** Aggregate operations are atomic: whenever `add_item` or `confirm`
returns an error, the post-state equals the pre-state — every field (`id`,
`customer_id`, `items`, `status`, `events`) is exactly as before the call. -/
theorem aggregate_ops_atomic (o : Order) (pid : ProductId) (q : Nat)
    (p : Money) (e e' : OrderError) :
    ((o.add_item pid q p).1 = .error e → (o.add_item pid q p).2 = o) ∧
    (o.confirm.1 = .error e' → o.confirm.2 = o) := by
  constructor
  · unfold Order.add_item
    split_ifs <;> simp
  · unfold Order.confirm
    split_ifs <;> simp

/-- **C9, witness.** On a Cancelled order both `add_item` and `confirm` fail
and leave the order exactly as it was. -/
theorem aggregate_ops_atomic_witness :
    ((Order.mk ⟨"o1"⟩ ⟨"c1"⟩ [] .Cancelled []).add_item ⟨"p1"⟩ 1
        (Money.zero "USD")).2 = Order.mk ⟨"o1"⟩ ⟨"c1"⟩ [] .Cancelled [] ∧
    (Order.mk ⟨"o1"⟩ ⟨"c1"⟩ [] .Cancelled []).confirm.2 =
      Order.mk ⟨"o1"⟩ ⟨"c1"⟩ [] .Cancelled [] :=
  ⟨(aggregate_ops_atomic _ ⟨"p1"⟩ 1 (Money.zero "USD") .CannotModifyCancelled
      (.InvalidState "Can only confirm draft orders")).1 (by decide),
   (aggregate_ops_atomic _ ⟨"p1"⟩ 1 (Money.zero "USD") .CannotModifyCancelled
      (.InvalidState "Can only confirm draft orders")).2 (by decide)⟩

/-- **C3, counterexample.** The claim "for every order in any status,
add_item with quantity 0 returns InvalidQuantity" is false: on a Cancelled
order the Cancelled check runs first, so `add_item` with quantity 0 returns
`CannotModifyCancelled`, not `InvalidQuantity`. -/
theorem add_item_qty0_counterexample :
    ((Order.mk ⟨"o1"⟩ ⟨"c1"⟩ [] .Cancelled []).add_item ⟨"p1"⟩ 0
        (Money.zero "USD")).1 = .error .CannotModifyCancelled ∧
    ((Order.mk ⟨"o1"⟩ ⟨"c1"⟩ [] .Cancelled []).add_item ⟨"p1"⟩ 0
        (Money.zero "USD")).1 ≠ .error .InvalidQuantity := by
  decide

/-- **C3, amended.** `add_item` with quantity 0 never mutates the order; it
returns `InvalidQuantity` on every order whose status is not Cancelled, and
`CannotModifyCancelled` (the check that runs first) on a Cancelled order. -/
theorem add_item_qty0 (o : Order) (pid : ProductId) (p : Money) :
    (o.status ≠ .Cancelled →
      o.add_item pid 0 p = (.error .InvalidQuantity, o)) ∧
    (o.status = .Cancelled →
      o.add_item pid 0 p = (.error .CannotModifyCancelled, o)) := by
  unfold Order.add_item
  split_ifs <;> simp_all

/-- **C3, witness.** A fresh Draft order rejects quantity 0 with
`InvalidQuantity` and is unchanged; a Cancelled order rejects it with
`CannotModifyCancelled` and is unchanged. -/
theorem add_item_qty0_witness :
    (Order.create ⟨"o1"⟩ ⟨"c1"⟩).add_item ⟨"p1"⟩ 0 (Money.zero "USD") =
      (.error .InvalidQuantity, Order.create ⟨"o1"⟩ ⟨"c1"⟩) ∧
    (Order.mk ⟨"o2"⟩ ⟨"c2"⟩ [] .Cancelled []).add_item ⟨"p1"⟩ 0
        (Money.zero "USD") =
      (.error .CannotModifyCancelled, Order.mk ⟨"o2"⟩ ⟨"c2"⟩ [] .Cancelled []) :=
  ⟨(add_item_qty0 _ ⟨"p1"⟩ (Money.zero "USD")).1 (by decide),
   (add_item_qty0 _ ⟨"p1"⟩ (Money.zero "USD")).2 (by decide)⟩

/-- **C2, counterexample.** The claim "confirm() on an order with zero items
always fails with EmptyOrder" is false: the Draft check runs first, so on a
Cancelled order with zero items `confirm` fails with `InvalidState`, not
`EmptyOrder`. -/
theorem confirm_counterexample :
    (Order.mk ⟨"o1"⟩ ⟨"c1"⟩ [] .Cancelled []).confirm.1 =
      .error (.InvalidState "Can only confirm draft orders") ∧
    (Order.mk ⟨"o1"⟩ ⟨"c1"⟩ [] .Cancelled []).confirm.1 ≠
      .error .EmptyOrder := by
  decide

/-- **C2, amended.** `confirm` on a *Draft* order with zero items fails with
`EmptyOrder` (on a non-Draft order the Draft check runs first); on a
non-Draft order it always fails with `InvalidState`; on a Draft order with
at least one item it sets the status to Confirmed and appends exactly one
`Confirmed` event carrying `total()` as computed on the pre-call state. In
the error cases the order is unchanged. -/
theorem confirm_spec (o : Order) :
    (o.status = .Draft → o.items = [] →
      o.confirm = (.error .EmptyOrder, o)) ∧
    (o.status ≠ .Draft →
      o.confirm =
        (.error (.InvalidState "Can only confirm draft orders"), o)) ∧
    (o.status = .Draft → o.items ≠ [] →
      o.confirm =
        (.ok (),
          { o with
              status := .Confirmed
              events := o.events ++ [.Confirmed o.id o.total] })) := by
  unfold Order.confirm
  split_ifs <;> simp_all

/-- **C2, witness.** An empty Draft order fails with `EmptyOrder` unchanged;
a Cancelled order fails with `InvalidState`; a Draft order holding one item
(quantity 2 at 100 cents) becomes Confirmed with exactly the `Confirmed`
event for its total of 200 cents appended. -/
theorem confirm_spec_witness :
    (Order.create ⟨"o1"⟩ ⟨"c1"⟩).confirm =
      (.error .EmptyOrder, Order.create ⟨"o1"⟩ ⟨"c1"⟩) ∧
    (Order.mk ⟨"o2"⟩ ⟨"c2"⟩ [] .Cancelled []).confirm =
      (.error (.InvalidState "Can only confirm draft orders"),
        Order.mk ⟨"o2"⟩ ⟨"c2"⟩ [] .Cancelled []) ∧
    (Order.mk ⟨"o3"⟩ ⟨"c3"⟩ [⟨⟨"p1"⟩, 2, Money.mk 100 "USD"⟩] .Draft
        [.Created ⟨"o3"⟩ ⟨"c3"⟩]).confirm =
      (.ok (),
        Order.mk ⟨"o3"⟩ ⟨"c3"⟩ [⟨⟨"p1"⟩, 2, Money.mk 100 "USD"⟩] .Confirmed
          [.Created ⟨"o3"⟩ ⟨"c3"⟩, .Confirmed ⟨"o3"⟩ (Money.mk 200 "USD")]) :=
  ⟨(confirm_spec _).1 (by decide) (by decide),
   (confirm_spec _).2.1 (by decide),
   by
    have h := (confirm_spec (Order.mk ⟨"o3"⟩ ⟨"c3"⟩
      [⟨⟨"p1"⟩, 2, Money.mk 100 "USD"⟩] .Draft
      [.Created ⟨"o3"⟩ ⟨"c3"⟩])).2.2 (by decide) (by decide)
    simpa using h⟩

/-- Merging into `pre ++ item :: post` where `item` is the first line item
carrying `product_id` (none in `pre` does) increases exactly that item's
quantity, keeping its `product_id` and `unit_price` and every other item. -/
theorem mergeItem_found (pre post : List OrderItem) (item : OrderItem)
    (pid : ProductId) (q : Nat) (p : Money)
    (hpid : item.product_id = pid)
    (hpre : pid ∉ pre.map OrderItem.product_id) :
    Order.mergeItem (pre ++ item :: post) pid q p =
      pre ++ { item with quantity := item.quantity + q } :: post := by
  induction pre with
  | nil =>
      simp [Order.mergeItem, hpid, OrderItem.increase_quantity]
  | cons head tail ih =>
      simp only [List.map_cons, List.mem_cons, not_or] at hpre
      simp only [List.cons_append, Order.mergeItem, List.append_eq]
      rw [if_neg (fun h => hpre.1 h.symm), ih hpre.2]

/-- **C10.** When `add_item` reaches the merge branch (non-Cancelled order,
positive quantity, product id already present — `item` being the first line
item with that id), only that item's quantity grows by `q`: its stored
`unit_price` is kept (the newly supplied price `p` is discarded), all other
items, the status, the id, the customer id and the event log are unchanged,
and the item list keeps its length. -/
theorem add_item_merge_frame (o : Order) (pid : ProductId) (q : Nat)
    (p : Money) (pre post : List OrderItem) (item : OrderItem)
    (hitems : o.items = pre ++ item :: post)
    (hpid : item.product_id = pid)
    (hpre : pid ∉ pre.map OrderItem.product_id)
    (hstatus : o.status ≠ .Cancelled) (hq : q ≠ 0) :
    o.add_item pid q p =
      (.ok (),
        { o with
            items := pre ++ { item with quantity := item.quantity + q } :: post }) ∧
    (o.add_item pid q p).2.items.length = o.items.length ∧
    (o.add_item pid q p).2.events = o.events := by
  have hmain : o.add_item pid q p =
      (.ok (),
        { o with
            items := pre ++ { item with quantity := item.quantity + q } :: post }) := by
    unfold Order.add_item
    rw [if_neg hstatus, if_neg hq, hitems, mergeItem_found pre post item pid q p hpid hpre]
  refine ⟨hmain, ?_, ?_⟩
  · rw [hmain]
    simp [hitems]
  · rw [hmain]

/-- **C10, witness.** Re-adding product "p1" (quantity 3 at a *different*
price of 999 cents) to an order holding quantity 2 of "p1" at 100 cents
yields quantity 5 still at 100 cents, with no event appended. -/
theorem add_item_merge_frame_witness :
    (Order.mk ⟨"o1"⟩ ⟨"c1"⟩ [⟨⟨"p1"⟩, 2, Money.mk 100 "USD"⟩] .Draft
        [.Created ⟨"o1"⟩ ⟨"c1"⟩]).add_item ⟨"p1"⟩ 3 (Money.mk 999 "USD") =
      (.ok (),
        Order.mk ⟨"o1"⟩ ⟨"c1"⟩ [⟨⟨"p1"⟩, 5, Money.mk 100 "USD"⟩] .Draft
          [.Created ⟨"o1"⟩ ⟨"c1"⟩]) := by
  have h := (add_item_merge_frame
    (Order.mk ⟨"o1"⟩ ⟨"c1"⟩ [⟨⟨"p1"⟩, 2, Money.mk 100 "USD"⟩] .Draft
      [.Created ⟨"o1"⟩ ⟨"c1"⟩]) ⟨"p1"⟩ 3 (Money.mk 999 "USD")
    [] [] ⟨⟨"p1"⟩, 2, Money.mk 100 "USD"⟩ (by decide) (by decide) (by decide)
    (by decide) (by decide)).1
  simpa using h

/-- `qtyOf` on a cons. -/
theorem qtyOf_cons (i : OrderItem) (rest : List OrderItem) (pid : ProductId) :
    qtyOf pid (i :: rest) =
      (if i.product_id = pid then i.quantity else 0) + qtyOf pid rest := by
  simp only [qtyOf, List.filter_cons]
  split_ifs with h <;> simp_all

/-- `sumFor` on a cons. -/
theorem sumFor_cons (op : ProductId × Nat × Money)
    (rest : List (ProductId × Nat × Money)) (pid : ProductId) :
    sumFor pid (op :: rest) =
      (if op.1 = pid then op.2.1 else 0) + sumFor pid rest := by
  simp only [sumFor, List.filter_cons]
  split_ifs with h <;> simp_all

/-- A product id that is absent from an item list stores quantity 0. -/
theorem qtyOf_eq_zero (items : List OrderItem) (pid : ProductId)
    (h : pid ∉ items.map OrderItem.product_id) : qtyOf pid items = 0 := by
  induction items with
  | nil => rfl
  | cons i rest ih =>
      simp only [List.map_cons, List.mem_cons, not_or] at h
      rw [qtyOf_cons, if_neg (fun hh => h.1 hh.symm), ih h.2]

/-- On a duplicate-free item list the stored quantity of a member is the
filtered sum `qtyOf` of its product id. -/
theorem qtyOf_of_nodup (items : List OrderItem)
    (h : (items.map OrderItem.product_id).Nodup) (item : OrderItem)
    (hmem : item ∈ items) : qtyOf item.product_id items = item.quantity := by
  induction items with
  | nil => cases hmem
  | cons i rest ih =>
      simp only [List.map_cons, List.nodup_cons] at h
      rcases List.mem_cons.mp hmem with heq | hmem'
      · subst heq
        rw [qtyOf_cons, if_pos rfl, qtyOf_eq_zero rest item.product_id h.1]
        omega
      · have hne : i.product_id ≠ item.product_id := fun hh => by
          exact h.1 (hh ▸ List.mem_map_of_mem OrderItem.product_id hmem')
        rw [qtyOf_cons, if_neg hne, ih h.2 hmem']
        simp

/-- Merging changes the stored quantity of the merged product id by exactly
the requested quantity and no other product id's quantity. -/
theorem qtyOf_mergeItem (items : List OrderItem) (pid : ProductId) (q : Nat)
    (p : Money) (pid' : ProductId) :
    qtyOf pid' (Order.mergeItem items pid q p) =
      qtyOf pid' items + (if pid = pid' then q else 0) := by
  induction items with
  | nil =>
      simp only [Order.mergeItem, OrderItem.new, qtyOf_cons]
      simp [qtyOf]
  | cons i rest ih =>
      by_cases hi : i.product_id = pid
      · simp only [Order.mergeItem, if_pos hi]
        rw [qtyOf_cons, qtyOf_cons]
        simp only [OrderItem.increase_quantity]
        by_cases hp : pid = pid' <;> simp_all
        omega
      · simp only [Order.mergeItem, if_neg hi]
        rw [qtyOf_cons, qtyOf_cons, ih]
        omega

/-- The product ids after a merge: unchanged when the merged id is already
present, otherwise the merged id is appended at the end. -/
theorem pids_mergeItem (items : List OrderItem) (pid : ProductId) (q : Nat)
    (p : Money) :
    (Order.mergeItem items pid q p).map OrderItem.product_id =
      if pid ∈ items.map OrderItem.product_id then
        items.map OrderItem.product_id
      else items.map OrderItem.product_id ++ [pid] := by
  induction items with
  | nil => simp [Order.mergeItem, OrderItem.new]
  | cons i rest ih =>
      by_cases hi : i.product_id = pid
      · simp [Order.mergeItem, hi, OrderItem.increase_quantity]
      · simp only [Order.mergeItem, if_neg hi, List.map_cons, ih]
        have hne : ¬pid = i.product_id := fun hh => hi hh.symm
        by_cases hm : pid ∈ rest.map OrderItem.product_id
        · rw [if_pos hm, if_pos (List.mem_cons_of_mem _ hm)]
        · rw [if_neg hm, if_neg (fun h => (List.mem_cons.mp h).elim hne hm),
            List.cons_append]

/-- Membership among the product ids after a merge. -/
theorem mem_pids_mergeItem (items : List OrderItem) (pid : ProductId)
    (q : Nat) (p : Money) (pid' : ProductId) :
    pid' ∈ (Order.mergeItem items pid q p).map OrderItem.product_id ↔
      pid' ∈ items.map OrderItem.product_id ∨ pid' = pid := by
  rw [pids_mergeItem]
  by_cases hm : pid ∈ items.map OrderItem.product_id
  · rw [if_pos hm]
    constructor
    · exact Or.inl
    · rintro (h | rfl) <;> assumption
  · rw [if_neg hm]
    simp

/-- Merging preserves freedom from duplicate product ids. -/
theorem nodup_mergeItem (items : List OrderItem) (pid : ProductId) (q : Nat)
    (p : Money) (h : (items.map OrderItem.product_id).Nodup) :
    ((Order.mergeItem items pid q p).map OrderItem.product_id).Nodup := by
  rw [pids_mergeItem]
  by_cases hm : pid ∈ items.map OrderItem.product_id
  · rwa [if_pos hm]
  · rw [if_neg hm]
    simp [List.nodup_append, h, hm]

/-- The post-state of a successful `add_item` (non-Cancelled order, positive
quantity) merges the new line into the item list and touches nothing else. -/
theorem add_item_step (o : Order) (pid : ProductId) (q : Nat) (p : Money)
    (ho : o.status ≠ .Cancelled) (hq : q ≠ 0) :
    (o.add_item pid q p).2 =
      { o with items := Order.mergeItem o.items pid q p } := by
  unfold Order.add_item
  rw [if_neg ho, if_neg hq]

/-- The invariant maintained by a sequence of `add_item` calls with positive
quantities on a non-Cancelled order: the status is untouched, each product
id's stored quantity grows by exactly the requested sum, exactly the
requested product ids appear, and freedom from duplicates is preserved. -/
theorem addAll_invariant (ops : List (ProductId × Nat × Money)) (o : Order)
    (ho : o.status ≠ .Cancelled) (hpos : ∀ op ∈ ops, 0 < op.2.1) :
    (addAll o ops).status = o.status ∧
    (∀ pid, qtyOf pid (addAll o ops).items =
      qtyOf pid o.items + sumFor pid ops) ∧
    (∀ pid, pid ∈ (addAll o ops).items.map OrderItem.product_id ↔
      pid ∈ o.items.map OrderItem.product_id ∨
        pid ∈ ops.map (fun op => op.1)) ∧
    ((o.items.map OrderItem.product_id).Nodup →
      ((addAll o ops).items.map OrderItem.product_id).Nodup) := by
  induction ops generalizing o with
  | nil =>
      simp [addAll, sumFor, qtyOf]
  | cons op rest ih =>
      have hq : op.2.1 ≠ 0 :=
        Nat.pos_iff_ne_zero.mp (hpos op (List.mem_cons_self op rest))
      have hstep : (o.add_item op.1 op.2.1 op.2.2).2 =
          { o with items := Order.mergeItem o.items op.1 op.2.1 op.2.2 } :=
        add_item_step o op.1 op.2.1 op.2.2 ho hq
      have hall : addAll o (op :: rest) =
          addAll { o with items := Order.mergeItem o.items op.1 op.2.1 op.2.2 }
            rest := by
        simp only [addAll, List.foldl_cons, hstep]
      have ih' := ih { o with items := Order.mergeItem o.items op.1 op.2.1 op.2.2 }
        ho (fun op' hmem => hpos op' (List.mem_cons_of_mem op hmem))
      rw [hall]
      refine ⟨ih'.1, ?_, ?_, ?_⟩
      · intro pid
        rw [ih'.2.1 pid]
        show qtyOf pid (Order.mergeItem o.items op.1 op.2.1 op.2.2) +
          sumFor pid rest = qtyOf pid o.items + sumFor pid (op :: rest)
        rw [qtyOf_mergeItem, sumFor_cons]
        by_cases hp : op.1 = pid <;> simp [hp]
        omega
      · intro pid
        rw [ih'.2.2.1 pid]
        show pid ∈ (Order.mergeItem o.items op.1 op.2.1 op.2.2).map
            OrderItem.product_id ∨ pid ∈ rest.map (fun op => op.1) ↔ _
        rw [mem_pids_mergeItem]
        simp only [List.map_cons, List.mem_cons]
        tauto
      · intro hnd
        exact ih'.2.2.2 (nodup_mergeItem o.items op.1 op.2.1 op.2.2 hnd)

/-- **C4.** After any sequence of successful `add_item` calls (positive
quantities; on a fresh order every such call succeeds) starting from a
freshly created order: the item list never contains two entries with the
same product id, its length is the number of distinct product ids added,
and each item stores the sum of all quantities added for its product id. -/
theorem add_item_accumulates (id : OrderId) (cid : CustomerId)
    (ops : List (ProductId × Nat × Money))
    (hpos : ∀ op ∈ ops, 0 < op.2.1) :
    ((addAll (Order.create id cid) ops).items.map OrderItem.product_id).Nodup ∧
    (addAll (Order.create id cid) ops).items.length =
      (ops.map (fun op => op.1)).dedup.length ∧
    ∀ item ∈ (addAll (Order.create id cid) ops).items,
      item.quantity = sumFor item.product_id ops := by
  have hstat : (Order.create id cid).status ≠ .Cancelled := by
    simp [Order.create]
  have hinv := addAll_invariant ops (Order.create id cid) hstat hpos
  have hnil : (Order.create id cid).items = [] := rfl
  have hnodup : ((addAll (Order.create id cid) ops).items.map
      OrderItem.product_id).Nodup := by
    exact hinv.2.2.2 (by rw [hnil]; exact List.nodup_nil)
  refine ⟨hnodup, ?_, ?_⟩
  · have hmem : ∀ pid,
        pid ∈ (addAll (Order.create id cid) ops).items.map
          OrderItem.product_id ↔ pid ∈ ops.map (fun op => op.1) := by
      intro pid
      rw [hinv.2.2.1 pid, hnil]
      simp
    have hfin : ((addAll (Order.create id cid) ops).items.map
        OrderItem.product_id).toFinset =
          (ops.map (fun op => op.1)).toFinset := by
      ext pid
      simp only [List.mem_toFinset]
      exact hmem pid
    calc (addAll (Order.create id cid) ops).items.length
        = ((addAll (Order.create id cid) ops).items.map
            OrderItem.product_id).length := (List.length_map _ _).symm
      _ = ((addAll (Order.create id cid) ops).items.map
            OrderItem.product_id).toFinset.card :=
          (List.toFinset_card_of_nodup hnodup).symm
      _ = (ops.map (fun op => op.1)).toFinset.card := by rw [hfin]
      _ = (ops.map (fun op => op.1)).dedup.length := List.card_toFinset _
  · intro item hmem
    have h := hinv.2.1 item.product_id
    rw [hnil] at h
    have hzero : qtyOf item.product_id ([] : List OrderItem) = 0 := rfl
    rw [hzero, Nat.zero_add] at h
    rw [← h]
    exact (qtyOf_of_nodup _ hnodup item hmem).symm

/-- **C4, witness.** Adding p1×2, p2×1, then p1×3 to a fresh order yields a
duplicate-free list of two items, matching the two distinct ids, and the
first item "p1" stores quantity 5 = 2 + 3, the sum requested for it. -/
theorem add_item_accumulates_witness :
    ((addAll (Order.create ⟨"o1"⟩ ⟨"c1"⟩)
        [(⟨"p1"⟩, 2, Money.mk 100 "USD"), (⟨"p2"⟩, 1, Money.mk 50 "USD"),
          (⟨"p1"⟩, 3, Money.mk 100 "USD")]).items.map
        OrderItem.product_id).Nodup ∧
    (addAll (Order.create ⟨"o1"⟩ ⟨"c1"⟩)
        [(⟨"p1"⟩, 2, Money.mk 100 "USD"), (⟨"p2"⟩, 1, Money.mk 50 "USD"),
          (⟨"p1"⟩, 3, Money.mk 100 "USD")]).items.length =
      (([(⟨"p1"⟩, 2, Money.mk 100 "USD"), (⟨"p2"⟩, 1, Money.mk 50 "USD"),
          (⟨"p1"⟩, 3, Money.mk 100 "USD")] :
        List (ProductId × Nat × Money)).map (fun op => op.1)).dedup.length ∧
    (OrderItem.mk ⟨"p1"⟩ 5 (Money.mk 100 "USD")).quantity =
      sumFor ⟨"p1"⟩
        [(⟨"p1"⟩, 2, Money.mk 100 "USD"), (⟨"p2"⟩, 1, Money.mk 50 "USD"),
          (⟨"p1"⟩, 3, Money.mk 100 "USD")] := by
  have h := add_item_accumulates ⟨"o1"⟩ ⟨"c1"⟩
    [(⟨"p1"⟩, 2, Money.mk 100 "USD"), (⟨"p2"⟩, 1, Money.mk 50 "USD"),
      (⟨"p1"⟩, 3, Money.mk 100 "USD")] (by decide)
  exact ⟨h.1, h.2.1,
    h.2.2 (OrderItem.mk ⟨"p1"⟩ 5 (Money.mk 100 "USD")) (by decide)⟩

/-- `add_item` never changes the order's id, customer id, status, or event
log, whether it succeeds or fails. -/
theorem add_item_frame (o : Order) (pid : ProductId) (q : Nat) (p : Money) :
    (o.add_item pid q p).2.id = o.id ∧
    (o.add_item pid q p).2.customer_id = o.customer_id ∧
    (o.add_item pid q p).2.status = o.status ∧
    (o.add_item pid q p).2.events = o.events := by
  unfold Order.add_item
  split_ifs <;> simp

/-- When the handler's item loop succeeds it returns the same aggregate with
only the item list changed: id, customer id, status and event log are those
of the order it started from. -/
theorem addCommandItems_frame
    (findProduct : String → Except RepositoryError (Option Product))
    (parseProduct : String → Option ProductId)
    (items : List PlaceOrderItem) (o o' : Order)
    (h : PlaceOrderHandler.addCommandItems findProduct parseProduct items o =
      .ok o') :
    o'.id = o.id ∧ o'.customer_id = o.customer_id ∧
    o'.status = o.status ∧ o'.events = o.events := by
  induction items generalizing o with
  | nil =>
      simp only [PlaceOrderHandler.addCommandItems, Except.ok.injEq] at h
      subst h
      exact ⟨rfl, rfl, rfl, rfl⟩
  | cons item rest ih =>
      simp only [PlaceOrderHandler.addCommandItems] at h
      split at h
      · exact absurd h (by simp)
      · exact absurd h (by simp)
      · split at h
        · exact absurd h (by simp)
        · split at h
          · rename_i xf product heqf xp product_id hpp xpair u o₂ heq
            have h2 := ih o₂ h
            have hframe := add_item_frame o product_id item.quantity
              product.price
            rw [heq] at hframe
            exact ⟨h2.1.trans hframe.1, h2.2.1.trans hframe.2.1,
              h2.2.2.1.trans hframe.2.2.1, h2.2.2.2.trans hframe.2.2.2⟩
          · exact absurd h (by simp)

/-- **C7.** Whenever the place-order use case succeeds — the customer id
parses, every item passes the loop, and the save succeeds — the handler
returns the created order's identifier in canonical text form, and the
persisted order (the one handed to `save`) still has `Draft` status
(`confirm` is never invoked) and an event log holding exactly the single
`Created` event. -/
theorem handle_success (freshId : OrderId)
    (parseCustomer : String → Option CustomerId)
    (parseProduct : String → Option ProductId)
    (findProduct : String → Except RepositoryError (Option Product))
    (save : Order → Except RepositoryError Unit)
    (cmd : PlaceOrderCommand) (cid : CustomerId) (o : Order)
    (hc : parseCustomer cmd.customer_id = some cid)
    (hb : PlaceOrderHandler.addCommandItems findProduct parseProduct cmd.items
      (Order.create freshId cid) = .ok o)
    (hs : save o = .ok ()) :
    PlaceOrderHandler.handle freshId parseCustomer parseProduct findProduct
        save cmd = .ok o.id.as_str ∧
    o.status = .Draft ∧
    o.events = [.Created freshId cid] ∧
    o.id = freshId := by
  have hframe := addCommandItems_frame findProduct parseProduct cmd.items _ _ hb
  refine ⟨?_, ?_, ?_, ?_⟩
  · unfold PlaceOrderHandler.handle
    simp only [hc, hb, hs]
  · rw [hframe.2.2.1]
    rfl
  · rw [hframe.2.2.2]
    rfl
  · rw [hframe.1]
    rfl

/-- **C7, witness.** A command for customer "c1" with one item "p1" × 2,
against collaborators that find every product at 100 cents and always save
successfully, yields the id "o1"; the saved order is Draft with the single
`Created` event. -/
theorem handle_success_witness :
    PlaceOrderHandler.handle ⟨"o1"⟩ (fun _ => some ⟨"c1"⟩)
        (fun s => some ⟨s⟩) (fun _ => .ok (some ⟨Money.mk 100 "USD"⟩))
        (fun _ => .ok ()) ⟨"c1", [⟨"p1", 2⟩]⟩ = .ok "o1" ∧
    (Order.mk ⟨"o1"⟩ ⟨"c1"⟩ [⟨⟨"p1"⟩, 2, Money.mk 100 "USD"⟩] .Draft
      [.Created ⟨"o1"⟩ ⟨"c1"⟩]).status = .Draft ∧
    (Order.mk ⟨"o1"⟩ ⟨"c1"⟩ [⟨⟨"p1"⟩, 2, Money.mk 100 "USD"⟩] .Draft
      [.Created ⟨"o1"⟩ ⟨"c1"⟩]).events = [.Created ⟨"o1"⟩ ⟨"c1"⟩] := by
  have h := handle_success ⟨"o1"⟩ (fun _ => some ⟨"c1"⟩) (fun s => some ⟨s⟩)
    (fun _ => .ok (some ⟨Money.mk 100 "USD"⟩)) (fun _ => .ok ())
    ⟨"c1", [⟨"p1", 2⟩]⟩ ⟨"c1"⟩
    (Order.mk ⟨"o1"⟩ ⟨"c1"⟩ [⟨⟨"p1"⟩, 2, Money.mk 100 "USD"⟩] .Draft
      [.Created ⟨"o1"⟩ ⟨"c1"⟩])
    rfl (by decide) rfl
  exact ⟨h.1, h.2.1, h.2.2.1⟩
